import Mathlib

/-!
Verification of the go-commands registration/dispatch engine.

The Go source is shallowly embedded: each catalog's mutable map becomes an
association list threaded through the operations (a Go map write is a
cons to the front, a Go map read is the first matching entry, which realises
last-writer-wins exactly); `reflect.Type` keys become an abstract key type
`κ` with decidable equality; type-erased `CommandReq[CommandRes]` /
`CommandRes` interface values become an abstract value type `V` together
with a function `typeOf : V → κ` playing the role of `reflect.TypeOf`,
with `Option V` standing for a possibly-nil interface value; Go's
`(value, error)` multi-returns become pairs with `Option (GoError κ)` as
the error slot.  Methods that mutate their receiver additionally return the
updated receiver, and dispatch operations also return how many times the
handler factory was invoked during the call, which is the observable the
lazy-construction claims are about.
-/

set_option autoImplicit false

namespace GoCommands

/-- Execution contexts (`context.Context`) carry no observable state in this
model; handlers still receive one, mirroring the Go signatures. -/
abbrev GoCtx := Unit

/-- Go map read `v, ok := m[k]`: the first (most recently written) entry wins. -/
def mapLookup {κ ν : Type} [DecidableEq κ] : List (κ × ν) → κ → Option ν
  | [], _ => none
  | (k, v) :: rest, key => if k = key then some v else mapLookup rest key

/-- Go map write `m[k] = v`: later writes shadow earlier ones under `mapLookup`. -/
def mapInsert {κ ν : Type} (m : List (κ × ν)) (k : κ) (v : ν) : List (κ × ν) :=
  (k, v) :: m

/-- Errors produced by `encoding/json.Unmarshal` (external library), as the
kinds relevant to this repository's decoders. -/
inductive JsonError where
  | unexpectedEnd
  | invalidCharacter (c : Char)
  | numberRange
  deriving DecidableEq

/-- The error taxonomy of the specification ("kinds, not concrete types"). -/
inductive ErrKind where
  | mappingMissing
  | decoderMissing
  | handlerMissing
  | invalidReqType
  | invalidResType
  | decoderFailure
  deriving DecidableEq

/-- Context attached by a `fmt.Errorf` wrap of an underlying error. -/
inductive ErrInfo (κ : Type) where
  | forReqName (reqName : String)
  | forReqType (reqType : Option κ)
  | noDecoderForReqType (reqType : κ)
  | resTypeUnexpected (got : Option κ) (expected : κ)
  | mappingStage
  | decodingStage
  | handlingStage
  deriving DecidableEq

/-- Go `error` values reaching this package's callers: the sentinel errors
declared with `errors.New`, `fmt.Errorf` wraps of them carrying context,
the adapter's plain (non-wrapping) request-type-mismatch error, errors from
`encoding/json`, and arbitrary errors returned by user handlers. -/
inductive GoError (κ : Type) where
  | errMappingMissing
  | errHandlerMissing
  | errInvalidResType
  | errNotCataloged
  | wrap (info : ErrInfo κ) (inner : GoError κ)
  | reqTypeMismatch (got : κ) (expected : κ)
  | goJsonError (e : JsonError)
  | user (msg : String)
  deriving DecidableEq

/-- `errors.Is`: equality against the target, unwrapping `%w` wraps. -/
def GoError.is {κ : Type} [DecidableEq κ] : GoError κ → GoError κ → Bool
  | .wrap info inner, target => decide (GoError.wrap info inner = target) || inner.is target
  | e, target => decide (e = target)

/-- `errors.Is` lifted to a possibly-nil error (`errors.Is(nil, target)` is false). -/
def errIsO {κ : Type} [DecidableEq κ] : Option (GoError κ) → GoError κ → Bool
  | none, _ => false
  | some e, target => e.is target

/-- Classification of a framework error into the specification's taxonomy,
read off the error's provenance.  The decoder catalog of `decoder.go`
expresses its missing-decoder failure as `"no decoder for reqType: %s"`
wrapping the generic `util.ErrNotCataloged` sentinel; that error is the
taxonomy's DecoderMissing kind. -/
def GoError.kind {κ : Type} : GoError κ → Option ErrKind
  | .errMappingMissing => some .mappingMissing
  | .errHandlerMissing => some .handlerMissing
  | .errInvalidResType => some .invalidResType
  | .errNotCataloged => none
  | .wrap info inner =>
      match info with
      | .noDecoderForReqType _ => some .decoderMissing
      | _ => inner.kind
  | .reqTypeMismatch _ _ => some .invalidReqType
  | .goJsonError _ => none
  | .user _ => none

/-- `MappingCatalog` (mapping.go): bidirectional store between request names
and request type keys, one map per direction. -/
structure MappingCatalog (κ : Type) where
  nameMappings : List (String × κ)
  typeMappings : List (κ × String)

/-- `NewMappingCatalog`: both maps start empty. -/
def NewMappingCatalog (κ : Type) : MappingCatalog κ :=
  { nameMappings := [], typeMappings := [] }

/-- `MappingCatalog.Insert`: records both directions.  The nil-map
initialisation branches of the source are no-ops here because the model's
maps are always materialised. -/
def MappingCatalog.Insert {κ : Type} (m : MappingCatalog κ) (reqName : String)
    (reqType : κ) : MappingCatalog κ :=
  { nameMappings := mapInsert m.nameMappings reqName reqType
    typeMappings := mapInsert m.typeMappings reqType reqName }

/-- `MappingCatalog.ByName`: `(nil, fmt.Errorf("%w for req name: %s", ErrMappingMissing, reqName))`
when absent, `(reqType, nil)` when present. -/
def MappingCatalog.ByName {κ : Type} [DecidableEq κ] (m : MappingCatalog κ)
    (reqName : String) : Option κ × Option (GoError κ) :=
  match mapLookup m.nameMappings reqName with
  | none => (none, some (.wrap (.forReqName reqName) .errMappingMissing))
  | some reqType => (some reqType, none)

/-- `MappingCatalog.ByType`: `("", err)` when absent, `(reqName, nil)` when present. -/
def MappingCatalog.ByType {κ : Type} [DecidableEq κ] (m : MappingCatalog κ)
    (reqType : κ) : String × Option (GoError κ) :=
  match mapLookup m.typeMappings reqType with
  | none => ("", some (.wrap (.forReqType (some reqType)) .errMappingMissing))
  | some reqName => (reqName, none)

/-- A whole registration phase: a sequence of `Insert` calls applied in order. -/
def insertAll {κ : Type} (cat : MappingCatalog κ)
    (l : List (String × κ)) : MappingCatalog κ :=
  l.foldl (fun c p => c.Insert p.1 p.2) cat

/-!
JSON layer.  Modelled from the documented behaviour of the external
`encoding/json` library as used by `DefaultDecoder` (decoder.go): the request
types of this repository are flat structs of `int` fields carrying JSON tags,
so a request shape is the list of its tags and `Unmarshal` parses a single
JSON object of integer members into it.  Zero-length input fails with
`SyntaxError: unexpected end of JSON input`; a JSON `null` leaves the target
at its zero value; unknown object keys are ignored; trailing non-whitespace
after the top-level value is an error.  String escapes, nested values and
non-integer members are outside the shapes this repository registers and are
rejected as invalid characters.
-/

/-- JSON insignificant whitespace. -/
def isJsonWS (c : Char) : Bool :=
  c = ' ' || c = '\t' || c = '\n' || c = '\r'

/-- Drop leading JSON whitespace. -/
def skipWS : List Char → List Char
  | [] => []
  | c :: rest => if isJsonWS c then skipWS rest else c :: rest

/-- Read the body of a JSON string up to its closing quote (the opening quote
has already been consumed); `none` if the input ends first. -/
def takeStringBody : List Char → Option (List Char × List Char)
  | [] => none
  | c :: rest =>
    if c = '\"' then some ([], rest)
    else match takeStringBody rest with
      | none => none
      | some (body, after) => some (c :: body, after)

/-- Consume a run of decimal digits, returning the accumulated value, how many
digits were consumed, and the rest of the input. -/
def takeDigits : List Char → Nat → Nat → Nat × Nat × List Char
  | [], acc, count => (acc, count, [])
  | c :: rest, acc, count =>
    if '0' ≤ c ∧ c ≤ '9' then
      takeDigits rest (acc * 10 + (c.toNat - '0'.toNat)) (count + 1)
    else (acc, count, c :: rest)

/-- Parse a JSON integer token into a Go `int` (64-bit two's complement):
values outside the `int64` range fail with an unmarshalling range error. -/
def parseIntTok : List Char → Except JsonError (Int × List Char)
  | [] => .error .unexpectedEnd
  | '-' :: rest =>
    match takeDigits rest 0 0 with
    | (_, 0, []) => .error .unexpectedEnd
    | (_, 0, c :: _) => .error (.invalidCharacter c)
    | (n, _ + 1, after) =>
      if n ≤ 2 ^ 63 then .ok (-(n : Int), after) else .error .numberRange
  | c :: rest =>
    if '0' ≤ c ∧ c ≤ '9' then
      match takeDigits (c :: rest) 0 0 with
      | (n, _, after) =>
        if n ≤ 2 ^ 63 - 1 then .ok ((n : Int), after) else .error .numberRange
    else .error (.invalidCharacter c)

/-- Parse the members of a JSON object (positioned at a key) into a key/value
list; fuelled recursion, with fuel at least the input length. -/
def parseMembers : Nat → List Char → Except JsonError (List (String × Int) × List Char)
  | 0, _ => .error .unexpectedEnd
  | fuel + 1, s =>
    match skipWS s with
    | [] => .error .unexpectedEnd
    | c :: rest =>
      if c = '\"' then
        match takeStringBody rest with
        | none => .error .unexpectedEnd
        | some (body, afterKey) =>
          match skipWS afterKey with
          | [] => .error .unexpectedEnd
          | d :: afterColonTok =>
            if d = ':' then
              match parseIntTok (skipWS afterColonTok) with
              | .error e => .error e
              | .ok (v, afterVal) =>
                match skipWS afterVal with
                | [] => .error .unexpectedEnd
                | t :: afterSep =>
                  if t = ',' then
                    match parseMembers fuel afterSep with
                    | .error e => .error e
                    | .ok (kvs, rest₂) => .ok ((body.asString, v) :: kvs, rest₂)
                  else if t = '}' then .ok ([(body.asString, v)], afterSep)
                  else .error (.invalidCharacter t)
            else .error (.invalidCharacter d)
      else .error (.invalidCharacter c)

/-- Parse a top-level JSON value for unmarshalling into a struct: an object of
integer members, or `null` (which leaves the struct at its zero value).
Trailing non-whitespace is rejected, as `json.Unmarshal` does. -/
def jsonParseTop (s : List Char) : Except JsonError (List (String × Int)) :=
  match skipWS s with
  | [] => .error .unexpectedEnd
  | c :: rest =>
    if c = '{' then
      match skipWS rest with
      | [] => .error .unexpectedEnd
      | d :: tail =>
        if d = '}' then
          match skipWS tail with
          | [] => .ok []
          | t :: _ => .error (.invalidCharacter t)
        else
          match parseMembers (d :: tail).length (d :: tail) with
          | .error e => .error e
          | .ok (kvs, rest₂) =>
            match skipWS rest₂ with
            | [] => .ok kvs
            | t :: _ => .error (.invalidCharacter t)
    else
      match c :: rest with
      | 'n' :: 'u' :: 'l' :: 'l' :: tail =>
        match skipWS tail with
        | [] => .ok []
        | t :: _ => .error (.invalidCharacter t)
      | _ => .error (.invalidCharacter c)

/-- The zero value of a struct shape: every field zero. -/
def jsonZero (fields : List String) : List (String × Int) :=
  fields.map fun f => (f, 0)

/-- Assign a parsed member to the matching struct field; members whose key
matches no field are ignored, as `json.Unmarshal` ignores unknown keys. -/
def setField (obj : List (String × Int)) (k : String) (v : Int) : List (String × Int) :=
  obj.map fun p => if p.1 = k then (p.1, v) else p

/-- `json.Unmarshal(data, &req)` for a request struct of shape `fields`:
start from the zero value and apply the parsed members in order. -/
def jsonUnmarshalStruct (fields : List String) (data : String) :
    Except JsonError (List (String × Int)) :=
  match jsonParseTop data.toList with
  | .error e => .error e
  | .ok kvs => .ok (kvs.foldl (fun o kv => setField o kv.1 kv.2) (jsonZero fields))

/-- `Decoder` (decoder.go): a function from the raw payload to a decoded
(possibly nil) request value and an error. -/
abbrev Decoder (κ V : Type) := String → Option V × Option (GoError κ)

/-- `DecoderCatalog` (decoder.go): request type key → decoder function. -/
structure DecoderCatalog (κ V : Type) where
  decoders : List (κ × Decoder κ V)

/-- `NewDecoderCatalog`. -/
def NewDecoderCatalog (κ V : Type) : DecoderCatalog κ V :=
  { decoders := [] }

/-- `DecoderCatalog.Insert`. -/
def DecoderCatalog.Insert {κ V : Type} (d : DecoderCatalog κ V) (reqType : κ)
    (decoder : Decoder κ V) : DecoderCatalog κ V :=
  { decoders := mapInsert d.decoders reqType decoder }

/-- `DecoderCatalog.Decode` (decoder.go lines 114-122): missing decoder fails
with `fmt.Errorf("no decoder for reqType: %s, %w", reqType, util.ErrNotCataloged)`;
otherwise the result is the decoder's, unchanged. -/
def DecoderCatalog.Decode {κ V : Type} [DecidableEq κ] (d : DecoderCatalog κ V)
    (reqType : κ) (reqJSON : String) : Option V × Option (GoError κ) :=
  match mapLookup d.decoders reqType with
  | none => (none, some (.wrap (.noDecoderForReqType reqType) .errNotCataloged))
  | some decoder => decoder reqJSON

/-- The behaviour of a user handler instance (`Handler[TReq,TRes].Handle`) at
the type-erased boundary: a pure function from context and request to a
(possibly nil) result value and an error. -/
abbrev HandlerFn (κ V : Type) := GoCtx → V → Option V × Option (GoError κ)

/-- Outcome of a Go call that may terminate the goroutine with a runtime
panic instead of returning. -/
inductive GoOutcome (α : Type) where
  | ret (val : α)
  | crashed
  deriving DecidableEq

/-- `DefaultHandlerAdapter`: declared request/result type keys, the
lazily-built handler instance (`nil` until first use), and the factory.  The
factory may return a nil handler, which the source contemplates (the
`ErrHandlerMissing` branch of its `Handle`). -/
structure DefaultHandlerAdapter (κ V : Type) where
  reqType : κ
  resType : κ
  handler : Option (HandlerFn κ V)
  handlerFactory : Unit → Option (HandlerFn κ V)

/-- `NewDefaultHandlerAdapter`: handler starts nil. -/
def NewDefaultHandlerAdapter {κ V : Type} (reqType resType : κ)
    (factory : Unit → Option (HandlerFn κ V)) : DefaultHandlerAdapter κ V :=
  { reqType := reqType, resType := resType, handler := none, handlerFactory := factory }

/-- `DefaultHandlerAdapter.Handle` (part_005 lines 103-125): check the
request cast first; then double-checked lazy construction; if the factory
left the handler nil, fail with `ErrHandlerMissing`; otherwise delegate to
the handler instance unchanged.  Returns the call's result pair, the adapter
after the call, and how many times the factory was invoked. -/
def DefaultHandlerAdapter.Handle {κ V : Type} [DecidableEq κ] (typeOf : V → κ)
    (a : DefaultHandlerAdapter κ V) (ctx : GoCtx) (req : V) :
    (Option V × Option (GoError κ)) × DefaultHandlerAdapter κ V × Nat :=
  if typeOf req = a.reqType then
    match a.handler with
    | some h => (h ctx req, a, 0)
    | none =>
      match a.handlerFactory () with
      | some h => (h ctx req, { a with handler := some h }, 1)
      | none =>
        ((none, some (.wrap (.forReqType (some a.reqType)) .errHandlerMissing)), a, 1)
  else
    ((none, some (.reqTypeMismatch (typeOf req) a.reqType)), a, 0)

/-- `DefaultHandlerAdapter.Handle`, the handler.go lines 101-112 variant:
same cast check and lazy construction, but the handler is invoked without a
nil check, so a factory that returns nil crashes the call (method call on a
nil interface).  Its mismatch message formats the stored handler rather than
the declared request type; the error datum here records the declared type. -/
def DefaultHandlerAdapter.HandleV1 {κ V : Type} [DecidableEq κ] (typeOf : V → κ)
    (a : DefaultHandlerAdapter κ V) (ctx : GoCtx) (req : V) :
    GoOutcome (Option V × Option (GoError κ)) × DefaultHandlerAdapter κ V × Nat :=
  if typeOf req = a.reqType then
    match a.handler with
    | some h => (.ret (h ctx req), a, 0)
    | none =>
      match a.handlerFactory () with
      | some h => (.ret (h ctx req), { a with handler := some h }, 1)
      | none => (.crashed, a, 1)
  else
    (.ret (none, some (.reqTypeMismatch (typeOf req) a.reqType)), a, 0)

/-- `HandlerCatalog` (part_005): request type key → handler adapter.  The
source stores the `HandlerAdapter` interface; `DefaultHandlerAdapter` is its
only implementation in the repository. -/
structure HandlerCatalog (κ V : Type) where
  adapters : List (κ × DefaultHandlerAdapter κ V)

/-- `NewHandlerCatalog`. -/
def NewHandlerCatalog (κ V : Type) : HandlerCatalog κ V :=
  { adapters := [] }

/-- `HandlerCatalog.Insert`: keyed by the adapter's `ReqType()`. -/
def HandlerCatalog.Insert {κ V : Type} (c : HandlerCatalog κ V)
    (a : DefaultHandlerAdapter κ V) : HandlerCatalog κ V :=
  { adapters := mapInsert c.adapters a.reqType a }

/-- `InsertHandler`: registers a fresh `DefaultHandlerAdapter` for the factory. -/
def InsertHandler {κ V : Type} (c : HandlerCatalog κ V) (reqType resType : κ)
    (factory : Unit → Option (HandlerFn κ V)) : HandlerCatalog κ V :=
  c.Insert (NewDefaultHandlerAdapter reqType resType factory)

/-- `HandlerCatalog.Handle` (part_005 lines 202-211): look up the adapter by
the request's runtime type (`reflect.TypeOf(nil)` is nil and matches no
registered key, so a nil request misses); absent adapters fail with
`fmt.Errorf("%w for req type: %s", ErrHandlerMissing, reqType)`; otherwise
delegate to the adapter unchanged.  The catalog after the call reflects the
adapter's in-place mutation. -/
def HandlerCatalog.Handle {κ V : Type} [DecidableEq κ] (typeOf : V → κ)
    (c : HandlerCatalog κ V) (ctx : GoCtx) (req : Option V) :
    (Option V × Option (GoError κ)) × HandlerCatalog κ V × Nat :=
  match req with
  | none => ((none, some (.wrap (.forReqType none) .errHandlerMissing)), c, 0)
  | some r =>
    match mapLookup c.adapters (typeOf r) with
    | none =>
      ((none, some (.wrap (.forReqType (some (typeOf r))) .errHandlerMissing)), c, 0)
    | some a =>
      let call := a.Handle typeOf ctx r
      (call.1, { adapters := mapInsert c.adapters (typeOf r) call.2.1 }, call.2.2)

/-- One dispatch step against an adapter, accumulating the factory
invocation count. -/
def adapterStep {κ V : Type} [DecidableEq κ] (typeOf : V → κ) (ctx : GoCtx)
    (st : DefaultHandlerAdapter κ V × Nat) (req : V) :
    DefaultHandlerAdapter κ V × Nat :=
  let call := st.1.Handle typeOf ctx req
  (call.2.1, st.2 + call.2.2)

/-- A sequence of dispatches against one adapter, accumulating the factory
invocation count. -/
def runAdapter {κ V : Type} [DecidableEq κ] (typeOf : V → κ) (ctx : GoCtx)
    (a : DefaultHandlerAdapter κ V) (reqs : List V) :
    DefaultHandlerAdapter κ V × Nat :=
  reqs.foldl (adapterStep typeOf ctx) (a, 0)

/-- `Handle[TReq,TRes]` (part_005 lines 227-237): call the untyped catalog
`Handle`; on `ErrHandlerMissing` return the zero `TRes` with that error
unchanged; then `res.(TRes)`, failing with a wrap of `ErrInvalidResType` on
mismatch, and otherwise return the typed result together with the untyped
call's error unchanged.  `zeroOf resT` is `*new(TRes)`. -/
def Handle {κ V : Type} [DecidableEq κ] (typeOf : V → κ) (zeroOf : κ → V)
    (ctx : GoCtx) (c : HandlerCatalog κ V) (req : V) (resT : κ) :
    (V × Option (GoError κ)) × HandlerCatalog κ V × Nat :=
  let call := HandlerCatalog.Handle typeOf c ctx (some req)
  let res := call.1.1
  let err := call.1.2
  if errIsO err .errHandlerMissing then ((zeroOf resT, err), call.2)
  else
    match res with
    | some v =>
      if typeOf v = resT then ((v, err), call.2)
      else
        ((zeroOf resT,
          some (.wrap (.resTypeUnexpected (some (typeOf v)) resT) .errInvalidResType)),
         call.2)
    | none =>
      ((zeroOf resT,
        some (.wrap (.resTypeUnexpected none resT) .errInvalidResType)),
       call.2)

/-- `Manager` (part_007): one instance of each catalog. -/
structure Manager (κ V : Type) where
  mappingCatalog : MappingCatalog κ
  decoderCatalog : DecoderCatalog κ V
  handlerCatalog : HandlerCatalog κ V

/-- `NewManager`. -/
def NewManager {κ V : Type} (mc : MappingCatalog κ) (dc : DecoderCatalog κ V)
    (hc : HandlerCatalog κ V) : Manager κ V :=
  { mappingCatalog := mc, decoderCatalog := dc, handlerCatalog := hc }

/-- `Insert[TReq,TRes]` on a manager (part_007 lines 29-33): registers the
same request type into all three catalogs in one call. -/
def ManagerInsert {κ V : Type} (m : Manager κ V) (reqName : String)
    (reqType resType : κ) (decoder : Decoder κ V)
    (factory : Unit → Option (HandlerFn κ V)) : Manager κ V :=
  { mappingCatalog := m.mappingCatalog.Insert reqName reqType
    decoderCatalog := m.decoderCatalog.Insert reqType decoder
    handlerCatalog := InsertHandler m.handlerCatalog reqType resType factory }

/-- `Manager.HandleRaw` (part_007 lines 35-49): `ByName` → `Decode` →
`Handle`, wrapping each stage's error with stage context and a nil result.
The arm in which `ByName` reports no error but no type is unreachable, since
`ByName` returns a type exactly when its error is nil. -/
def Manager.HandleRaw {κ V : Type} [DecidableEq κ] (typeOf : V → κ)
    (m : Manager κ V) (reqName : String) (reqJSON : String) (ctx : GoCtx) :
    (Option V × Option (GoError κ)) × Manager κ V × Nat :=
  let byName := m.mappingCatalog.ByName reqName
  match byName.2 with
  | some e => ((none, some (.wrap .mappingStage e)), m, 0)
  | none =>
    match byName.1 with
    | none => ((none, none), m, 0)
    | some reqType =>
      let decoded := m.decoderCatalog.Decode reqType reqJSON
      match decoded.2 with
      | some e => ((none, some (.wrap .decodingStage e)), m, 0)
      | none =>
        let handled := m.handlerCatalog.Handle typeOf ctx decoded.1
        match handled.1.2 with
        | some e =>
          ((none, some (.wrap .handlingStage e)),
           { m with handlerCatalog := handled.2.1 }, handled.2.2)
        | none =>
          ((handled.1.1, none), { m with handlerCatalog := handled.2.1 }, handled.2.2)

/-- `Manager.HandleReq` (part_007 lines 51-57): straight to the handler
catalog, wrapping any error with stage context and a nil result. -/
def Manager.HandleReq {κ V : Type} [DecidableEq κ] (typeOf : V → κ)
    (m : Manager κ V) (req : Option V) (ctx : GoCtx) :
    (Option V × Option (GoError κ)) × Manager κ V × Nat :=
  let handled := m.handlerCatalog.Handle typeOf ctx req
  match handled.1.2 with
  | some e =>
    ((none, some (.wrap .handlingStage e)),
     { m with handlerCatalog := handled.2.1 }, handled.2.2)
  | none =>
    ((handled.1.1, none), { m with handlerCatalog := handled.2.1 }, handled.2.2)

/-- `HandleReq[TReq,TRes]` (part_007 lines 67-75): calls the manager's
`HandleReq`; on error returns the zero `TRes` and a further wrap; on success
performs the unchecked assertion `genericRes.(TRes)`, which crashes the
goroutine when the result is nil or its runtime type differs from `TRes`. -/
def HandleReq {κ V : Type} [DecidableEq κ] (typeOf : V → κ) (zeroOf : κ → V)
    (m : Manager κ V) (req : V) (resT : κ) (ctx : GoCtx) :
    GoOutcome (V × Option (GoError κ)) × Manager κ V × Nat :=
  let call := m.HandleReq typeOf (some req) ctx
  match call.1.2 with
  | some e => (.ret (zeroOf resT, some (.wrap .handlingStage e)), call.2)
  | none =>
    match call.1.1 with
    | some v =>
      if typeOf v = resT then (.ret (v, none), call.2) else (.crashed, call.2)
    | none => (.crashed, call.2)

/-!
Futures (part_001).  `Start` launches its function on a fresh goroutine and
the `WaitGroup` makes that single execution's write to `result` visible to
every `Wait`; the sequential denotation of a future is therefore its resolved
result plus the number of times the wrapped function has been executed.
`Wait` is modelled state-passing — it returns the observed value and the
future as it stands after the call — so that "the computation is not
re-executed by `Wait`" is the literal statement that the future (and with it
`fnRuns`) is unchanged.
-/

/-- A resolved `future[R]`: the computation's result and how many times the
wrapped function has run. -/
structure future (R : Type) where
  result : R
  fnRuns : Nat

/-- `future.Wait`: blocks until resolution and returns the result; the future
itself is unchanged by the call. -/
def future.Wait {R : Type} (f : future R) : R × future R :=
  (f.result, f)

/-- `Start(ctx, fn)`: runs `fn ctx` exactly once on its own goroutine. -/
def Start {R : Type} (ctx : GoCtx) (fn : GoCtx → R) : future R :=
  { result := fn ctx, fnRuns := 1 }

/-- `Value(v)`: `Start` with a function returning `v` immediately. -/
def Value {R : Type} (v : R) : future R :=
  Start () fun _ => v

/-- `WaitAll`: a new future whose computation waits on each input future in
input order, collecting the results positionally. -/
def WaitAll {R : Type} (futures : List (future R)) : future (List R) :=
  Start () fun _ => futures.map fun f => (f.Wait).1

/-!
The concrete command types of the repository (part_003): `AddCommandReq` /
`AddCommandRes` / `SubCommandReq` / `SubCommandRes`, their runtime type keys,
and the add handler and default decoder instantiated at them.
-/

/-- The runtime type keys (`reflect.Type`) of the repository's command types. -/
inductive GoType where
  | addCommandReqT
  | addCommandResT
  | subCommandReqT
  | subCommandResT
  deriving DecidableEq

/-- Type-erased runtime values of the repository's command types.  Go `int`
fields are modelled as unbounded `Int` with two's-complement wrapping applied
at arithmetic (`int64Wrap`). -/
inductive GoVal where
  | addReq (argX argY : Int)
  | addRes (result : Int)
  | subReq (argX argY : Int)
  | subRes (result : Int)
  deriving DecidableEq

/-- `reflect.TypeOf` on the concrete universe. -/
def goTypeOf : GoVal → GoType
  | .addReq _ _ => .addCommandReqT
  | .addRes _ => .addCommandResT
  | .subReq _ _ => .subCommandReqT
  | .subRes _ => .subCommandResT

/-- `*new(T)`: the zero value of each concrete type. -/
def goZeroOf : GoType → GoVal
  | .addCommandReqT => .addReq 0 0
  | .addCommandResT => .addRes 0
  | .subCommandReqT => .subReq 0 0
  | .subCommandResT => .subRes 0

/-- Go 64-bit `int` addition semantics: wrap into `[-2^63, 2^63)`. -/
def int64Wrap (z : Int) : Int :=
  (z + 2 ^ 63) % 2 ^ 64 - 2 ^ 63

/-- `AddHandler.Handle` (part_003 lines 23-26): `Result = ArgX + ArgY`.  The
non-`AddCommandReq` arm is unreachable through the adapter, which dispatches
only values of the declared request type here. -/
def AddHandler : HandlerFn GoType GoVal := fun _ v =>
  match v with
  | .addReq x y => (some (.addRes (int64Wrap (x + y))), none)
  | _ => (none, none)

/-- The add handler factory used by the repository's registrations. -/
def addFactory : Unit → Option (HandlerFn GoType GoVal) :=
  fun _ => some AddHandler

/-- `DefaultDecoder[AddCommandReq]` (decoder.go lines 23-31): unmarshal the
payload into the `AddCommandReq` shape (`argX`, `argY`), returning
`(nil, err)` on unmarshalling failure. -/
def DefaultDecoderAdd : Decoder GoType GoVal := fun data =>
  match jsonUnmarshalStruct ["argX", "argY"] data with
  | .error e => (none, some (.goJsonError e))
  | .ok obj =>
    (some (.addReq ((mapLookup obj "argX").getD 0) ((mapLookup obj "argY").getD 0)),
     none)

/-- The manager after `Insert[AddCommandReq, AddCommandRes](manager, "add",
DefaultDecoder[AddCommandReq](), func() Handler { return &AddHandler{} })`. -/
def mgrAdd : Manager GoType GoVal :=
  ManagerInsert
    (NewManager (NewMappingCatalog GoType) (NewDecoderCatalog GoType GoVal)
      (NewHandlerCatalog GoType GoVal))
    "add" .addCommandReqT .addCommandResT DefaultDecoderAdd addFactory

/-!
Helper lemmas shared by the claim theorems.
-/

/-- An adapter with a built instance, or a fresh adapter whose factory
produces one, delegates a matching request to that instance unchanged. -/
theorem adapterHandle_result {κ V : Type} [DecidableEq κ] (typeOf : V → κ)
    (ctx : GoCtx) (a : DefaultHandlerAdapter κ V) (req : V) (h : HandlerFn κ V)
    (hb : a.handler = some h ∨ (a.handler = none ∧ a.handlerFactory () = some h))
    (hm : typeOf req = a.reqType) :
    (a.Handle typeOf ctx req).1 = h ctx req := by
  rcases hb with hb | ⟨hb, hf⟩
  · simp [DefaultHandlerAdapter.Handle, hm, hb]
  · simp [DefaultHandlerAdapter.Handle, hm, hb, hf]

/-- The untyped catalog `Handle` returns the registered instance's result
pair unchanged. -/
theorem catalogHandle_result {κ V : Type} [DecidableEq κ] (typeOf : V → κ)
    (ctx : GoCtx) (c : HandlerCatalog κ V) (a : DefaultHandlerAdapter κ V)
    (req : V) (h : HandlerFn κ V)
    (hc : mapLookup c.adapters (typeOf req) = some a)
    (hb : a.handler = some h ∨ (a.handler = none ∧ a.handlerFactory () = some h))
    (hm : typeOf req = a.reqType) :
    (HandlerCatalog.Handle typeOf c ctx (some req)).1 = h ctx req := by
  simp only [HandlerCatalog.Handle, hc]
  exact adapterHandle_result typeOf ctx a req h hb hm

/-- Dispatch steps leave an adapter whose instance is already built unchanged
and never touch the factory. -/
theorem adapterStep_built {κ V : Type} [DecidableEq κ] (typeOf : V → κ)
    (ctx : GoCtx) (st : DefaultHandlerAdapter κ V × Nat) (req : V)
    (h : HandlerFn κ V) (hb : st.1.handler = some h) :
    adapterStep typeOf ctx st req = st := by
  by_cases hm : typeOf req = st.1.reqType
  · simp [adapterStep, DefaultHandlerAdapter.Handle, hm, hb]
  · simp [adapterStep, DefaultHandlerAdapter.Handle, hm]

/-- Folding dispatch steps from a built adapter is the identity. -/
theorem foldl_adapterStep_built {κ V : Type} [DecidableEq κ] (typeOf : V → κ)
    (ctx : GoCtx) (h : HandlerFn κ V) (reqs : List V) :
    ∀ st : DefaultHandlerAdapter κ V × Nat, st.1.handler = some h →
      reqs.foldl (adapterStep typeOf ctx) st = st := by
  induction reqs with
  | nil => intro st _; rfl
  | cons r rest ih =>
    intro st hb
    rw [List.foldl_cons, adapterStep_built typeOf ctx st r h hb]
    exact ih st hb

/-- Later `Insert` calls that touch neither a pair's name nor its type
preserve both of the pair's lookups. -/
theorem insertAll_preserves_lookups {κ : Type} [DecidableEq κ]
    (l : List (String × κ)) :
    ∀ (c : MappingCatalog κ) (n : String) (t : κ),
      mapLookup c.nameMappings n = some t →
      mapLookup c.typeMappings t = some n →
      (∀ p ∈ l, p.1 ≠ n ∧ p.2 ≠ t) →
      mapLookup (insertAll c l).nameMappings n = some t ∧
      mapLookup (insertAll c l).typeMappings t = some n := by
  induction l with
  | nil => intro c n t h1 h2 _; exact ⟨h1, h2⟩
  | cons p rest ih =>
    intro c n t h1 h2 havoid
    have hp := havoid p (List.mem_cons_self p rest)
    have hrest : ∀ q ∈ rest, q.1 ≠ n ∧ q.2 ≠ t := fun q hq =>
      havoid q (List.mem_cons_of_mem p hq)
    have h1' : mapLookup (c.Insert p.1 p.2).nameMappings n = some t := by
      simp [MappingCatalog.Insert, mapInsert, mapLookup, hp.1, h1]
    have h2' : mapLookup (c.Insert p.1 p.2).typeMappings t = some n := by
      simp [MappingCatalog.Insert, mapInsert, mapLookup, hp.2, h2]
    exact ih (c.Insert p.1 p.2) n t h1' h2' hrest

/-!
Claim theorems.
-/

/-- A catalog after two `Insert` calls that reuse the same type key under
different names. -/
def catReuse : MappingCatalog GoType :=
  ((NewMappingCatalog GoType).Insert "a" .addCommandReqT).Insert "b" .addCommandReqT

/-- Claim C1 counterexample: after `Insert("a", AddReq)` then
`Insert("b", AddReq)`, the name `"a"` still maps to the type `AddReq`, yet
the reverse lookup of that type yields `"b"`, a different name — the catalog
is not a bijection on its registered pairs once an `Insert` reuses an
earlier type key. -/
theorem mappingCatalog_reuse_breaks_bijection :
    catReuse.ByName "a" = (some GoType.addCommandReqT, none) ∧
    catReuse.ByType GoType.addCommandReqT = ("b", none) ∧
    "b" ≠ "a" := by
  refine ⟨rfl, rfl, by decide⟩

/-- Claim C1 (amended): after any sequence of `Insert` calls, every inserted
pair whose name and type key are both untouched by all later `Insert` calls
satisfies `ByName(name) = (reqType, nil)` and `ByType(reqType) = (name, nil)`;
in particular, when all inserted names and type keys are pairwise distinct
the catalog is a bijection on all inserted pairs. -/
theorem mappingCatalog_roundtrip_of_no_later_reuse {κ : Type} [DecidableEq κ]
    (l₁ l₂ : List (String × κ)) (n : String) (t : κ)
    (havoid : ∀ p ∈ l₂, p.1 ≠ n ∧ p.2 ≠ t) :
    (insertAll (NewMappingCatalog κ) (l₁ ++ (n, t) :: l₂)).ByName n = (some t, none) ∧
    (insertAll (NewMappingCatalog κ) (l₁ ++ (n, t) :: l₂)).ByType t = (n, none) := by
  have hfold : insertAll (NewMappingCatalog κ) (l₁ ++ (n, t) :: l₂)
      = insertAll ((insertAll (NewMappingCatalog κ) l₁).Insert n t) l₂ := by
    simp [insertAll, List.foldl_append]
  have h1 : mapLookup ((insertAll (NewMappingCatalog κ) l₁).Insert n t).nameMappings n
      = some t := by
    simp [MappingCatalog.Insert, mapInsert, mapLookup]
  have h2 : mapLookup ((insertAll (NewMappingCatalog κ) l₁).Insert n t).typeMappings t
      = some n := by
    simp [MappingCatalog.Insert, mapInsert, mapLookup]
  obtain ⟨hn, ht⟩ := insertAll_preserves_lookups l₂ _ n t h1 h2 havoid
  rw [hfold]
  exact ⟨by simp [MappingCatalog.ByName, hn], by simp [MappingCatalog.ByType, ht]⟩

/-- Witness for the amended C1 theorem at a concrete insertion sequence. -/
theorem mappingCatalog_roundtrip_witness :
    (∀ p ∈ [("b", GoType.addCommandResT)],
        p.1 ≠ "a" ∧ p.2 ≠ GoType.addCommandReqT) ∧
    (insertAll (NewMappingCatalog GoType)
        ([("x", GoType.subCommandReqT)] ++
          ("a", GoType.addCommandReqT) :: [("b", GoType.addCommandResT)])).ByName "a"
      = (some GoType.addCommandReqT, none) ∧
    (insertAll (NewMappingCatalog GoType)
        ([("x", GoType.subCommandReqT)] ++
          ("a", GoType.addCommandReqT) :: [("b", GoType.addCommandResT)])).ByType
        GoType.addCommandReqT
      = ("a", none) := by
  refine ⟨by decide, ?_, ?_⟩
  · exact (mappingCatalog_roundtrip_of_no_later_reuse _ _ _ _ (by decide)).1
  · exact (mappingCatalog_roundtrip_of_no_later_reuse _ _ _ _ (by decide)).2

/-- Claim C3 counterexample: with the default decoder registered for
`AddCommandReq`, `Decode` of the zero-length payload fails with the JSON
unmarshalling error for empty input instead of producing the request type's
zero value without error. -/
theorem defaultDecoder_empty_payload_errors :
    mgrAdd.decoderCatalog.Decode GoType.addCommandReqT ""
      = (none, some (.goJsonError .unexpectedEnd)) ∧
    mgrAdd.decoderCatalog.Decode GoType.addCommandReqT ""
      ≠ (some (goZeroOf GoType.addCommandReqT), none) := by
  exact ⟨rfl, by decide⟩

/-- Claim C3 (amended): for every request struct shape, unmarshalling the
empty-object payload `{}` yields the zero value without error — and so does
`Decode` through the catalog for a registered default decoder — while the
zero-length payload fails with `unexpected end of JSON input` rather than
decoding to the zero value. -/
theorem defaultDecoder_empty_object_zero_value (fields : List String) :
    jsonUnmarshalStruct fields "" = .error .unexpectedEnd ∧
    jsonUnmarshalStruct fields "\x7b\x7d" = .ok (jsonZero fields) ∧
    mgrAdd.decoderCatalog.Decode GoType.addCommandReqT "\x7b\x7d"
      = (some (goZeroOf GoType.addCommandReqT), none) := by
  exact ⟨rfl, rfl, rfl⟩

/-- Claim C4: after registering `AddCommandReq`/`AddCommandRes` under the
name `"add"` with the default decoder and the add handler, `HandleRaw` on
the payload `{"argX":3,"argY":4}` returns `AddCommandRes{Result:7}` and no
error. -/
theorem handleRaw_add_end_to_end :
    (mgrAdd.HandleRaw goTypeOf "add" "\x7b\"argX\":3,\"argY\":4\x7d" ()).1
      = (some (GoVal.addRes 7), none) := by
  rfl

/-- Claim C7: `WaitAll` resolves to a sequence of the same length as its
input whose i-th element is the resolved value of the i-th input future, and
an empty input resolves to the empty sequence. -/
theorem waitAll_preserves_input_order {R : Type} (fs : List (future R)) :
    ((WaitAll fs).Wait).1.length = fs.length ∧
    (∀ i : Nat, ((WaitAll fs).Wait).1.get? i
      = (fs.get? i).map fun f => (f.Wait).1) ∧
    ((WaitAll ([] : List (future R))).Wait).1 = [] := by
  refine ⟨?_, fun i => ?_, rfl⟩
  · simp [WaitAll, Start, future.Wait]
  · simp [WaitAll, Start, future.Wait]

/-- Claim C8: `Wait` is idempotent — it leaves the future unchanged (so the
wrapped function's run count is untouched and the computation is not
re-executed), repeated calls observe the identical value, the computation of
a started future has run exactly once, and `Value(v).Wait()` returns `v`. -/
theorem wait_idempotent_no_reexecution {R : Type} (f : future R) (v : R)
    (ctx : GoCtx) (fn : GoCtx → R) :
    (f.Wait).2 = f ∧
    ((f.Wait).2.Wait).1 = (f.Wait).1 ∧
    (Start ctx fn).fnRuns = 1 ∧
    (Value v).Wait.1 = v :=
  ⟨rfl, rfl, rfl, rfl⟩

/-- Claim C2: for a registered request type whose handler instance is built
(or freshly constructible from the factory), the handler's own error reaches
the caller unchanged through both the untyped catalog `Handle` and the typed
wrapper `Handle[TReq,TRes]`, and the wrapper introduces its `InvalidResType`
failure exactly when the untyped result's runtime type does not match the
expected result type. -/
theorem handler_error_propagated_unchanged {κ V : Type} [DecidableEq κ]
    (typeOf : V → κ) (zeroOf : κ → V) (ctx : GoCtx) :
    (∀ (c : HandlerCatalog κ V) (req : V) (a : DefaultHandlerAdapter κ V)
        (h : HandlerFn κ V) (r : V) (e : Option (GoError κ)),
      mapLookup c.adapters (typeOf req) = some a →
      a.reqType = typeOf req →
      (a.handler = some h ∨ (a.handler = none ∧ a.handlerFactory () = some h)) →
      h ctx req = (some r, e) →
      typeOf r = a.resType →
      (HandlerCatalog.Handle typeOf c ctx (some req)).1 = (some r, e) ∧
      (Handle typeOf zeroOf ctx c req a.resType).1.2 = e ∧
      (errIsO e .errHandlerMissing = false →
        (Handle typeOf zeroOf ctx c req a.resType).1.1 = r)) ∧
    (∀ (c : HandlerCatalog κ V) (req : V) (resT : κ),
      errIsO (HandlerCatalog.Handle typeOf c ctx (some req)).1.2 .errHandlerMissing
          = false →
      (∀ v, (HandlerCatalog.Handle typeOf c ctx (some req)).1.1 = some v →
        typeOf v = resT →
        (Handle typeOf zeroOf ctx c req resT).1
          = (v, (HandlerCatalog.Handle typeOf c ctx (some req)).1.2)) ∧
      ((HandlerCatalog.Handle typeOf c ctx (some req)).1.1 = none →
        (Handle typeOf zeroOf ctx c req resT).1.2
          = some (.wrap (.resTypeUnexpected none resT) .errInvalidResType)) ∧
      (∀ v, (HandlerCatalog.Handle typeOf c ctx (some req)).1.1 = some v →
        typeOf v ≠ resT →
        (Handle typeOf zeroOf ctx c req resT).1.2
          = some (.wrap (.resTypeUnexpected (some (typeOf v)) resT)
              .errInvalidResType))) := by
  constructor
  · intro c req a h r e hc hrt hb hh hres
    have hcat : (HandlerCatalog.Handle typeOf c ctx (some req)).1 = (some r, e) := by
      rw [catalogHandle_result typeOf ctx c a req h hc hb hrt.symm, hh]
    refine ⟨hcat, ?_, ?_⟩
    · by_cases hmiss : errIsO e .errHandlerMissing = true
      · simp [Handle, hcat, hmiss]
      · have hmiss' : errIsO e .errHandlerMissing = false := by
          simpa using hmiss
        simp [Handle, hcat, hmiss', hres]
    · intro hmiss
      simp [Handle, hcat, hmiss, hres]
  · intro c req resT hmiss
    refine ⟨?_, ?_, ?_⟩
    · intro v hv ht
      simp [Handle, hmiss, hv, ht]
    · intro hv
      simp [Handle, hmiss, hv]
    · intro v hv ht
      simp [Handle, hmiss, hv, ht]

/-- A handler instance returning a result together with its own error. -/
def hBoom : HandlerFn GoType GoVal := fun _ _ =>
  (some (.addRes 5), some (.user "boom"))

/-- An adapter for `AddCommandReq` whose handler instance is already built. -/
def aBoom : DefaultHandlerAdapter GoType GoVal :=
  { reqType := .addCommandReqT, resType := .addCommandResT,
    handler := some hBoom, handlerFactory := fun _ => none }

/-- A handler catalog with `aBoom` registered. -/
def cBoom : HandlerCatalog GoType GoVal :=
  { adapters := [(GoType.addCommandReqT, aBoom)] }

/-- Witness for C2: a registered handler returning its own error `"boom"`
propagates that error unchanged through the untyped and the typed paths. -/
theorem handler_error_propagated_witness :
    mapLookup cBoom.adapters (goTypeOf (GoVal.addReq 1 2)) = some aBoom ∧
    (HandlerCatalog.Handle goTypeOf cBoom () (some (GoVal.addReq 1 2))).1
      = (some (GoVal.addRes 5), some (.user "boom")) ∧
    (Handle goTypeOf goZeroOf () cBoom (GoVal.addReq 1 2) GoType.addCommandResT).1.2
      = some (.user "boom") := by
  have T := handler_error_propagated_unchanged (κ := GoType) (V := GoVal)
    goTypeOf goZeroOf ()
  have T1 := T.1 cBoom (GoVal.addReq 1 2) aBoom hBoom (GoVal.addRes 5)
    (some (.user "boom")) rfl rfl (Or.inl rfl) rfl rfl
  exact ⟨rfl, T1.1, T1.2.1⟩

/-- Claim C5: for unregistered names and type keys, `ByName`, `ByType`,
`Decode`, and the catalog `Handle` each fail with the corresponding
missing-registration error kind of the taxonomy and return a zero/empty
result (`nil` type, `""` name, `nil` request, `nil` result). -/
theorem unregistered_lookups_fail_with_missing_kind {κ V : Type} [DecidableEq κ]
    (typeOf : V → κ) (mc : MappingCatalog κ) (dc : DecoderCatalog κ V)
    (hc : HandlerCatalog κ V) (name : String) (t : κ) (json : String)
    (ctx : GoCtx)
    (hn : mapLookup mc.nameMappings name = none)
    (ht : mapLookup mc.typeMappings t = none)
    (hd : mapLookup dc.decoders t = none)
    (hh : mapLookup hc.adapters t = none) :
    (mc.ByName name = (none, some (.wrap (.forReqName name) .errMappingMissing)) ∧
      (GoError.wrap (κ := κ) (.forReqName name) .errMappingMissing).kind
        = some .mappingMissing) ∧
    (mc.ByType t = ("", some (.wrap (.forReqType (some t)) .errMappingMissing)) ∧
      (GoError.wrap (κ := κ) (.forReqType (some t)) .errMappingMissing).kind
        = some .mappingMissing) ∧
    (dc.Decode t json
        = (none, some (.wrap (.noDecoderForReqType t) .errNotCataloged)) ∧
      (GoError.wrap (κ := κ) (.noDecoderForReqType t) .errNotCataloged).kind
        = some .decoderMissing) ∧
    (∀ req : V, typeOf req = t →
      hc.Handle typeOf ctx (some req)
        = ((none, some (.wrap (.forReqType (some t)) .errHandlerMissing)), hc, 0) ∧
      (GoError.wrap (κ := κ) (.forReqType (some t)) .errHandlerMissing).kind
        = some .handlerMissing) := by
  refine ⟨⟨?_, rfl⟩, ⟨?_, rfl⟩, ⟨?_, rfl⟩, fun req hreq => ⟨?_, rfl⟩⟩
  · simp [MappingCatalog.ByName, hn]
  · simp [MappingCatalog.ByType, ht]
  · simp [DecoderCatalog.Decode, hd]
  · simp [HandlerCatalog.Handle, hreq, hh]

/-- Witness for C5 on empty catalogs and the never-registered name `"sub"`
and type `SubCommandReq`. -/
theorem unregistered_lookups_witness :
    mapLookup (NewMappingCatalog GoType).nameMappings "sub" = none ∧
    (NewMappingCatalog GoType).ByName "sub"
      = (none, some (.wrap (.forReqName "sub") .errMappingMissing)) ∧
    (NewHandlerCatalog GoType GoVal).Handle goTypeOf () (some (GoVal.subReq 0 0))
      = ((none,
          some (.wrap (.forReqType (some GoType.subCommandReqT)) .errHandlerMissing)),
         NewHandlerCatalog GoType GoVal, 0) ∧
    (NewDecoderCatalog GoType GoVal).Decode GoType.subCommandReqT "\x7b\x7d"
      = (none,
         some (.wrap (.noDecoderForReqType GoType.subCommandReqT) .errNotCataloged)) := by
  have T := unregistered_lookups_fail_with_missing_kind goTypeOf
    (NewMappingCatalog GoType) (NewDecoderCatalog GoType GoVal)
    (NewHandlerCatalog GoType GoVal) "sub" GoType.subCommandReqT "\x7b\x7d" ()
    rfl rfl rfl rfl
  exact ⟨rfl, T.1.1, (T.2.2.2 (GoVal.subReq 0 0) rfl).1, T.2.2.1.1⟩

/-- An adapter whose factory returns a nil handler (the source's
`HandlerFactory` may do so; its `Handle` has a branch for this case). -/
def adapterNilFactory : DefaultHandlerAdapter GoType GoVal :=
  NewDefaultHandlerAdapter .addCommandReqT .addCommandResT fun _ => none

/-- Claim C6 counterexample: an adapter whose factory returns a nil handler
invokes the factory again on every matching dispatch — two dispatches of a
matching request invoke the factory twice, so the factory is not "never
called a second time". -/
theorem adapter_nil_factory_called_twice :
    (runAdapter goTypeOf () adapterNilFactory
        [GoVal.addReq 0 0, GoVal.addReq 0 0]).2 = 2 := rfl

/-- Claim C6 (amended): provided the factory returns a (non-nil) handler
instance, the factory is not invoked before the first dispatch whose request
matches the declared request type, is invoked exactly once on that dispatch,
and every later dispatch through the same adapter reuses the stored instance
with no further factory calls. -/
theorem adapter_factory_called_once_lazily {κ V : Type} [DecidableEq κ]
    (typeOf : V → κ) (ctx : GoCtx) (reqT resT : κ)
    (factory : Unit → Option (HandlerFn κ V)) (h₀ : HandlerFn κ V)
    (reqs : List V) (hf : factory () = some h₀) :
    runAdapter typeOf ctx (NewDefaultHandlerAdapter reqT resT factory) reqs
      = (if reqs.any (fun r => decide (typeOf r = reqT)) then
          ({ reqType := reqT, resType := resT, handler := some h₀,
             handlerFactory := factory }, 1)
         else (NewDefaultHandlerAdapter reqT resT factory, 0)) ∧
    (∀ (a : DefaultHandlerAdapter κ V) (req : V), a.handler = some h₀ →
      typeOf req = a.reqType →
      a.Handle typeOf ctx req = (h₀ ctx req, a, 0)) := by
  constructor
  · induction reqs with
    | nil => simp [runAdapter]
    | cons r rest ih =>
      by_cases hm : typeOf r = reqT
      · have hstep :
            adapterStep typeOf ctx (NewDefaultHandlerAdapter reqT resT factory, 0) r
              = ({ reqType := reqT, resType := resT, handler := some h₀,
                   handlerFactory := factory }, 1) := by
          simp [adapterStep, DefaultHandlerAdapter.Handle, NewDefaultHandlerAdapter,
            hm, hf]
        have hrest := foldl_adapterStep_built typeOf ctx h₀ rest
          ({ reqType := reqT, resType := resT, handler := some h₀,
             handlerFactory := factory }, 1) rfl
        simp only [runAdapter, List.foldl_cons] at ih ⊢
        rw [hstep, hrest]
        simp [hm]
      · have hstep :
            adapterStep typeOf ctx (NewDefaultHandlerAdapter reqT resT factory, 0) r
              = (NewDefaultHandlerAdapter reqT resT factory, 0) := by
          simp [adapterStep, DefaultHandlerAdapter.Handle, NewDefaultHandlerAdapter, hm]
        simp only [runAdapter, List.foldl_cons] at ih ⊢
        rw [hstep, ih]
        simp [hm]
  · intro a req hb hm
    simp [DefaultHandlerAdapter.Handle, hm, hb]

/-- Witness for the amended C6 theorem: dispatching a mismatched request and
then two matching requests through a fresh adapter builds the instance once. -/
theorem adapter_factory_once_witness :
    addFactory () = some AddHandler ∧
    runAdapter goTypeOf ()
        (NewDefaultHandlerAdapter GoType.addCommandReqT GoType.addCommandResT
          addFactory)
        [GoVal.subReq 1 1, GoVal.addReq 1 2, GoVal.addReq 3 4]
      = ({ reqType := GoType.addCommandReqT, resType := GoType.addCommandResT,
           handler := some AddHandler, handlerFactory := addFactory }, 1) := by
  refine ⟨rfl, ?_⟩
  have T := adapter_factory_called_once_lazily goTypeOf () GoType.addCommandReqT
    GoType.addCommandResT addFactory AddHandler
    [GoVal.subReq 1 1, GoVal.addReq 1 2, GoVal.addReq 3 4] rfl
  simpa using T.1

/-- Claim C9 counterexample: the generic `HandleReq` instantiated with a
result type parameter that does not match the registered handler's result
type performs an unchecked type assertion and crashes the goroutine instead
of returning an error: dispatching a registered `AddCommandReq` while
expecting `SubCommandRes` panics. -/
theorem handleReq_mismatched_type_param_crashes :
    (HandleReq goTypeOf goZeroOf mgrAdd (GoVal.addReq 3 4)
        GoType.subCommandResT ()).1 = GoOutcome.crashed := rfl

/-- Claim C9 (amended): missing registrations and undecodable payloads are
surfaced as returned errors with a nil/zero result and never crash — through
`HandleRaw` for unknown names and failing decoders, and through the generic
`HandleReq` for unregistered request types — and `HandleReq` does not crash
when its result type parameter matches the registered adapter's result type;
only a mismatched result type parameter crashes (see the counterexample). -/
theorem dispatch_errors_surfaced_not_crashes {κ V : Type} [DecidableEq κ]
    (typeOf : V → κ) (zeroOf : κ → V) (ctx : GoCtx) :
    (∀ (m : Manager κ V) (name json : String),
      mapLookup m.mappingCatalog.nameMappings name = none →
      m.HandleRaw typeOf name json ctx
        = ((none,
            some (.wrap .mappingStage (.wrap (.forReqName name) .errMappingMissing))),
           m, 0)) ∧
    (∀ (m : Manager κ V) (name json : String) (reqType : κ) (e : GoError κ),
      mapLookup m.mappingCatalog.nameMappings name = some reqType →
      (m.decoderCatalog.Decode reqType json).2 = some e →
      m.HandleRaw typeOf name json ctx
        = ((none, some (.wrap .decodingStage e)), m, 0)) ∧
    (∀ (m : Manager κ V) (req : V) (resT : κ),
      mapLookup m.handlerCatalog.adapters (typeOf req) = none →
      HandleReq typeOf zeroOf m req resT ctx
        = (.ret (zeroOf resT,
            some (.wrap .handlingStage (.wrap .handlingStage
              (.wrap (.forReqType (some (typeOf req))) .errHandlerMissing)))),
           m, 0)) ∧
    (∀ (m : Manager κ V) (req : V) (a : DefaultHandlerAdapter κ V)
        (h : HandlerFn κ V) (r : V) (e : Option (GoError κ)),
      mapLookup m.handlerCatalog.adapters (typeOf req) = some a →
      a.reqType = typeOf req →
      (a.handler = some h ∨ (a.handler = none ∧ a.handlerFactory () = some h)) →
      h ctx req = (some r, e) →
      typeOf r = a.resType →
      (HandleReq typeOf zeroOf m req a.resType ctx).1 ≠ GoOutcome.crashed) := by
  refine ⟨?_, ?_, ?_, ?_⟩
  · intro m name json hn
    simp [Manager.HandleRaw, MappingCatalog.ByName, hn]
  · intro m name json reqType e hn hd
    simp [Manager.HandleRaw, MappingCatalog.ByName, hn, hd]
  · intro m req resT hh
    simp [HandleReq, Manager.HandleReq, HandlerCatalog.Handle, hh]
  · intro m req a h r e hc hrt hb hh hres
    have hcat : (HandlerCatalog.Handle typeOf m.handlerCatalog ctx (some req)).1
        = (some r, e) := by
      rw [catalogHandle_result typeOf ctx m.handlerCatalog a req h hc hb hrt.symm, hh]
    rcases e with _ | e₀
    · simp [HandleReq, Manager.HandleReq, hcat, hres]
    · simp [HandleReq, Manager.HandleReq, hcat]

/-- Witness for the amended C9 theorem on the concrete add-only manager. -/
theorem dispatch_errors_surfaced_witness :
    mapLookup mgrAdd.mappingCatalog.nameMappings "sub" = none ∧
    mgrAdd.HandleRaw goTypeOf "sub" "" ()
      = ((none,
          some (.wrap .mappingStage (.wrap (.forReqName "sub") .errMappingMissing))),
         mgrAdd, 0) ∧
    mgrAdd.HandleRaw goTypeOf "add" "" ()
      = ((none, some (.wrap .decodingStage (.goJsonError .unexpectedEnd))),
         mgrAdd, 0) ∧
    HandleReq goTypeOf goZeroOf mgrAdd (GoVal.subReq 1 1) GoType.subCommandResT ()
      = (.ret (goZeroOf GoType.subCommandResT,
          some (.wrap .handlingStage (.wrap .handlingStage
            (.wrap (.forReqType (some GoType.subCommandReqT)) .errHandlerMissing)))),
         mgrAdd, 0) ∧
    (HandleReq goTypeOf goZeroOf mgrAdd (GoVal.addReq 1 2)
        GoType.addCommandResT ()).1 ≠ GoOutcome.crashed := by
  have T := dispatch_errors_surfaced_not_crashes (κ := GoType) (V := GoVal)
    goTypeOf goZeroOf ()
  refine ⟨rfl, ?_, ?_, ?_, ?_⟩
  · exact T.1 mgrAdd "sub" "" rfl
  · exact T.2.1 mgrAdd "add" "" GoType.addCommandReqT (.goJsonError .unexpectedEnd)
      rfl rfl
  · exact T.2.2.1 mgrAdd (GoVal.subReq 1 1) GoType.subCommandResT rfl
  · exact T.2.2.2 mgrAdd (GoVal.addReq 1 2)
      (NewDefaultHandlerAdapter GoType.addCommandReqT GoType.addCommandResT addFactory)
      AddHandler (GoVal.addRes 3) none rfl rfl (Or.inr ⟨rfl, rfl⟩) rfl rfl

/-- Claim C10: a dispatch whose request's runtime type does not match the
adapter's declared request type returns a type-mismatch error with a nil
result, does not invoke the handler factory, and leaves the adapter exactly
as it was — in both adapter variants. -/
theorem failed_dispatch_no_construction {κ V : Type} [DecidableEq κ]
    (typeOf : V → κ) (a : DefaultHandlerAdapter κ V) (ctx : GoCtx) (req : V)
    (hne : typeOf req ≠ a.reqType) :
    a.Handle typeOf ctx req
      = ((none, some (.reqTypeMismatch (typeOf req) a.reqType)), a, 0) ∧
    a.HandleV1 typeOf ctx req
      = (.ret (none, some (.reqTypeMismatch (typeOf req) a.reqType)), a, 0) := by
  constructor
  · simp [DefaultHandlerAdapter.Handle, hne]
  · simp [DefaultHandlerAdapter.HandleV1, hne]

/-- Witness for C10 at a concrete adapter and mismatched request: the stored
handler is nil before the call and nil after it. -/
theorem failed_dispatch_no_construction_witness :
    goTypeOf (GoVal.subReq 0 0) ≠ GoType.addCommandReqT ∧
    (NewDefaultHandlerAdapter GoType.addCommandReqT GoType.addCommandResT
        addFactory).Handle goTypeOf () (GoVal.subReq 0 0)
      = ((none, some (.reqTypeMismatch GoType.subCommandReqT GoType.addCommandReqT)),
         NewDefaultHandlerAdapter GoType.addCommandReqT GoType.addCommandResT
           addFactory, 0) ∧
    (NewDefaultHandlerAdapter GoType.addCommandReqT GoType.addCommandResT
        addFactory).handler = none := by
  refine ⟨by decide, ?_, rfl⟩
  exact (failed_dispatch_no_construction goTypeOf _ () _ (by decide)).1

end GoCommands
